import Mathlib

/-!
Shallow embedding of the streaming agent-interaction client of the
bidding-assistant frontend: the SSE framing/interpreting loop
`chatWithStream` and its caller `handleSend` (src/frontend/src/views/ChatView.vue),
and the conversation store (src/frontend/src/stores/chat.ts).

Strings are processed through explicit models of the JavaScript string
operations used by the source (`split('\n')`, `trim()`, `slice(n)`,
`startsWith`, `includes`), all defined on the character list of the string.
-/

namespace BidAssist

/-- Model of JS `String.prototype.split('\n')` on a character list. -/
def splitCharList (sep : Char) : List Char → List (List Char)
  | [] => [[]]
  | c :: t =>
    let r := splitCharList sep t
    if c == sep then [] :: r
    else
      match r with
      | [] => [[c]]
      | h :: t2 => (c :: h) :: t2

/-- Model of JS `buffer.split('\n')` (the framer's line split). -/
def jsSplitNl (s : String) : List String :=
  (splitCharList (Char.ofNat 10) s.data).map (fun l => String.mk l)

/-- Model of JS `String.prototype.trim` on a character list. -/
def trimCharList (l : List Char) : List Char :=
  ((l.dropWhile Char.isWhitespace).reverse.dropWhile Char.isWhitespace).reverse

/-- Model of JS `String.prototype.trim`. -/
def jsTrim (s : String) : String :=
  String.mk (trimCharList s.data)

/-- Model of JS `String.prototype.slice(n)` for a non-negative start index. -/
def jsSlice (s : String) (n : Nat) : String :=
  String.mk (s.data.drop n)

/-- List-level prefix test used to model `startsWith`. -/
def isPrefixList : List Char → List Char → Bool
  | [], _ => true
  | _ :: _, [] => false
  | a :: as, b :: bs => a == b && isPrefixList as bs

/-- Model of JS `String.prototype.startsWith(p)`. -/
def jsStartsWith (s p : String) : Bool :=
  isPrefixList p.data s.data

/-- Substring occurrence on character lists, used to model `includes`. -/
def hasSubstrList : List Char → List Char → Bool
  | [], needle => needle.isEmpty
  | c :: t, needle => isPrefixList needle (c :: t) || hasSubstrList t needle

/-- Model of JS `String.prototype.includes(sub)`. -/
def jsIncludes (s sub : String) : Bool :=
  hasSubstrList s.data sub.data

/-- Model of JS string concatenation `'prefix' + x` where `x` may be
`undefined` (an absent payload field): `undefined` prints as "undefined". -/
def jsStr : Option String → String
  | none => "undefined"
  | some s => s

/-- Model of JS truthiness of the `finalAnswer` variable, which is either
`undefined` (never assigned, or assigned from an absent field) or a string;
the empty string is falsy. -/
def jsTruthy : Option String → Bool
  | none => false
  | some s => s ≠ ""

/-- Session status of the agent (`agentStatus` in src/frontend/src/stores/chat.ts). -/
inductive AgentStatus
  | idle
  | thinking
  | executing
  | done
  | error
deriving DecidableEq

/-- Message role (`role` field of `Message` in chat.ts). -/
inductive Role
  | user
  | assistant
deriving DecidableEq

/-- Tool-call record (`ToolCall` in chat.ts).  The fields are filled from a
dynamically-typed payload, so each may be absent; `params` is the object
literal stored by the client, modelled as a key/value association list. -/
structure ToolCall where
  tool : Option String
  params : List (String × String)
  success : Option Bool
deriving DecidableEq

/-- Performance search record (`SemanticSearchResult` in
src/frontend/src/api/index.ts).  The floating-point `score` is modelled as a
rational, which is only ever copied, never computed with. -/
structure SearchResult where
  id : Nat
  file_name : String
  party_a : Option String
  contract_type : Option String
  amount : Option Int
  sign_date : Option String
  project_detail : Option String
  summary : Option String
  score : Rat
deriving DecidableEq

/-- Response of the semantic-search endpoint (`semanticSearchPerformances`
in api/index.ts). -/
structure SearchResponse where
  success : Bool
  query : String
  mode : String
  total : Nat
  results : List SearchResult
deriving DecidableEq

/-- One request issued to the semantic-search endpoint: the positional
arguments of `semanticSearchPerformances(query, topK, mode)`. -/
structure AugRequest where
  query : String
  top_k : Nat
  mode : String
deriving DecidableEq

/-- Conversation message (`Message` in chat.ts); `performances` is the field
attached dynamically by ChatView.vue.  The environment-generated `id` and
`timestamp` fields carry no program logic and are not modelled. -/
structure Message where
  role : Role
  content : String
  thinking : Option String
  toolCalls : Option (List ToolCall)
  status : Option AgentStatus
  performances : Option (List SearchResult)
deriving DecidableEq

/-- Agent execution step (`AgentStep` in chat.ts). -/
structure AgentStep where
  step : Nat
  state : String
  thought : Option String
  toolName : Option String
  toolParams : Option (List (String × String))
  toolResult : Option String
  error : Option String
deriving DecidableEq

/-- The chat store state (the pinia store in chat.ts). -/
structure ChatState where
  messages : List Message
  agentStatus : AgentStatus
  currentSteps : List AgentStep
  isLoading : Bool
deriving DecidableEq

/-- Decoded `data:` payload of one SSE event.  The payload is a JSON object
whose fields are read dynamically; an absent field is `none`.  `params` and
`result` are opaque JSON fragments, modelled respectively as an association
list and a string. -/
structure Data where
  thought : Option String
  tool : Option String
  params : Option (List (String × String))
  success : Option Bool
  result : Option String
  error : Option String
  answer : Option String
deriving DecidableEq

/-- One framed SSE event: the recorded event type paired with its decoded
payload. -/
structure Frame where
  eventType : String
  data : Data
deriving DecidableEq

/-- Store action `addUserMessage` (chat.ts). -/
def addUserMessage (s : ChatState) (content : String) : ChatState :=
  { s with messages := s.messages ++
      [{ role := Role.user
         content := content
         thinking := none
         toolCalls := none
         status := none
         performances := none }] }

/-- Store action `addAssistantMessage` (chat.ts), specialised to the extras
actually passed by ChatView.vue (`toolCalls` and the dynamically attached
`performances`). -/
def addAssistantMessage (s : ChatState) (content : String)
    (toolCalls : Option (List ToolCall))
    (performances : Option (List SearchResult)) : ChatState :=
  { s with messages := s.messages ++
      [{ role := Role.assistant
         content := content
         thinking := none
         toolCalls := toolCalls
         status := none
         performances := performances }] }

/-- A `Partial<Message>` update: an outer `none` means the key is absent from
the update object and the existing field is kept. -/
structure MessageUpdates where
  content : Option String
  thinking : Option (Option String)
  toolCalls : Option (Option (List ToolCall))
  status : Option (Option AgentStatus)
  performances : Option (Option (List SearchResult))
deriving DecidableEq

/-- Model of `Object.assign(message, updates)`: every key present in the
update object overwrites the corresponding field. -/
def mergeMessage (m : Message) (u : MessageUpdates) : Message :=
  { role := m.role
    content := u.content.getD m.content
    thinking := u.thinking.getD m.thinking
    toolCalls := u.toolCalls.getD m.toolCalls
    status := u.status.getD m.status
    performances := u.performances.getD m.performances }

/-- Reverse-scan worker for `updateLastAssistantMessage`: the input list is
the reversed message list, and the first assistant message found is merged
with the updates. -/
def updateLastAssistantRev (u : MessageUpdates) : List Message → List Message
  | [] => []
  | m :: rest =>
    if m.role = Role.assistant then mergeMessage m u :: rest
    else m :: updateLastAssistantRev u rest

/-- Store action `updateLastAssistantMessage` (chat.ts): reverse-scan for the
most recent assistant message and merge the updates into it in place. -/
def updateLastAssistantMessage (s : ChatState) (u : MessageUpdates) : ChatState :=
  { s with messages := (updateLastAssistantRev u s.messages.reverse).reverse }

/-- Store action `addStep` (chat.ts). -/
def addStep (s : ChatState) (st : AgentStep) : ChatState :=
  { s with currentSteps := s.currentSteps ++ [st] }

/-- Store action `clearSteps` (chat.ts). -/
def clearSteps (s : ChatState) : ChatState :=
  { s with currentSteps := [] }

/-- Store action `setAgentStatus` (chat.ts). -/
def setAgentStatus (s : ChatState) (st : AgentStatus) : ChatState :=
  { s with agentStatus := st }

/-- Store action `setLoading` (chat.ts). -/
def setLoading (s : ChatState) (b : Bool) : ChatState :=
  { s with isLoading := b }

/-- Local accumulator of one `chatWithStream` call: the `finalAnswer` and
`toolCalls` locals together with the (externally owned) chat store. -/
structure StreamAcc where
  finalAnswer : Option String
  toolCalls : List ToolCall
  chat : ChatState
deriving DecidableEq

/-- The `switch (eventType)` body of `chatWithStream` (ChatView.vue): the
effect of one decoded event on the stream accumulator and the store.  Event
types outside the five recognised ones fall through with no effect. -/
def handleEvent (st : StreamAcc) (eventType : String) (d : Data) : StreamAcc :=
  if eventType = "thinking" then
    let chat := setAgentStatus st.chat AgentStatus.thinking
    let stp : AgentStep :=
      { step := chat.currentSteps.length + 1
        state := "thinking"
        thought := d.thought
        toolName := none
        toolParams := none
        toolResult := none
        error := none }
    { st with chat := addStep chat stp }
  else if eventType = "tool_call" then
    let chat := setAgentStatus st.chat AgentStatus.executing
    let stp : AgentStep :=
      { step := chat.currentSteps.length + 1
        state := "executing"
        thought := none
        toolName := d.tool
        toolParams := d.params
        toolResult := none
        error := none }
    { st with chat := addStep chat stp }
  else if eventType = "tool_result" then
    let stp : AgentStep :=
      { step := st.chat.currentSteps.length + 1
        state := if d.success = some true then "done" else "error"
        thought := none
        toolName := d.tool
        toolParams := none
        toolResult := d.result
        error := d.error }
    { st with
      toolCalls := st.toolCalls ++ [⟨d.tool, [], d.success⟩]
      chat := addStep st.chat stp }
  else if eventType = "answer" then
    { st with
      finalAnswer := d.answer
      chat := setAgentStatus st.chat AgentStatus.done }
  else if eventType = "error" then
    { st with
      finalAnswer := some ("抱歉，执行出错：" ++ jsStr d.error)
      chat := setAgentStatus st.chat AgentStatus.error }
  else st

/-- Interpretation of a list of already-framed events in arrival order. -/
def processFrames : StreamAcc → List Frame → StreamAcc
  | acc, [] => acc
  | acc, f :: fs => processFrames (handleEvent acc f.eventType f.data) fs

/-- The inner `for (const line of lines)` loop of `chatWithStream`: classify
each complete line; an `event:` line updates the current event type, a
`data:` line is parsed with `JSON.parse` (a failure throws, carrying the
store state at the throw) and dispatched; any other line is skipped. -/
def processLines (parse : String → Except String Data) :
    String → StreamAcc → List String → Except (String × ChatState) StreamAcc
  | _, acc, [] => Except.ok acc
  | eventType, acc, line :: rest =>
    if jsStartsWith line "event:" then
      processLines parse (jsTrim (jsSlice line 6)) acc rest
    else if jsStartsWith line "data:" then
      match parse (jsTrim (jsSlice line 5)) with
      | Except.error e => Except.error (e, acc.chat)
      | Except.ok d => processLines parse eventType (handleEvent acc eventType d) rest
    else processLines parse eventType acc rest

/-- State carried across network reads: the residual text buffer together
with the stream accumulator.  The current event type is NOT part of this
state, because the source declares `let eventType = ''` inside the read
loop: it restarts as the empty string at every read. -/
structure ChunkAcc where
  buffer : String
  acc : StreamAcc
deriving DecidableEq

/-- One iteration of the `while (true)` read loop of `chatWithStream`:
append the decoded chunk to the buffer, split on line breaks, keep the last
(possibly incomplete) line as the new buffer, and process the complete lines
with the per-read event type starting at the empty string. -/
def processChunk (parse : String → Except String Data) (c : ChunkAcc)
    (chunk : String) : Except (String × ChatState) ChunkAcc :=
  let lines := jsSplitNl (c.buffer ++ chunk)
  match processLines parse "" c.acc lines.dropLast with
  | Except.error e => Except.error e
  | Except.ok acc => Except.ok ⟨(lines.getLast?).getD "", acc⟩

/-- The whole read loop over the successive network chunks; an exception
from `JSON.parse` aborts the loop immediately. -/
def processChunks (parse : String → Except String Data) :
    ChunkAcc → List String → Except (String × ChatState) ChunkAcc
  | c, [] => Except.ok c
  | c, chunk :: rest =>
    match processChunk parse c chunk with
    | Except.error e => Except.error e
    | Except.ok c2 => processChunks parse c2 rest

/-- The augmentation block of `chatWithStream`: when the final answer
contains one of the two trigger keywords, call
`semanticSearchPerformances(message, 5, 'hybrid')` once; a failure is
swallowed; a success with a non-empty result list yields the records with
their scores copied over.  The first component records the requests actually
issued. -/
def runAugmentation (lookup : AugRequest → Except String SearchResponse)
    (message finalAnswer : String) : List AugRequest × List SearchResult :=
  if jsIncludes finalAnswer "业绩" || jsIncludes finalAnswer "合同" then
    let req : AugRequest := ⟨message, 5, "hybrid"⟩
    match lookup req with
    | Except.error _ => ([req], [])
    | Except.ok res =>
      ([req], if res.results.length > 0
              then res.results.map (fun r => { r with score := r.score })
              else [])
  else ([], [])

/-- The assistant-message construction at the end of `chatWithStream`:
`toolCalls` is attached only when non-empty, `performances` only when the
augmentation produced records. -/
def sealTurn (finalAnswer : String) (toolCalls : List ToolCall)
    (performances : List SearchResult) (s : ChatState) : ChatState :=
  addAssistantMessage s finalAnswer
    (if toolCalls.length > 0 then some toolCalls else none)
    (if performances.length > 0 then some performances else none)

/-- The tail of `chatWithStream` after the read loop: only a truthy
`finalAnswer` produces an assistant message (and possibly an augmentation
lookup).  The second component is the list of augmentation requests issued. -/
def finishStream (lookup : AugRequest → Except String SearchResponse)
    (message : String) (st : StreamAcc) : ChatState × List AugRequest :=
  match st.finalAnswer with
  | none => (st.chat, [])
  | some ans =>
    if ans = "" then (st.chat, [])
    else
      let pr := runAugmentation lookup message ans
      (sealTurn ans st.toolCalls pr.2 st.chat, pr.1)

/-- Modelled from the spec: the counterfactual finalization in which the
augmentation lookup is never attempted — the turn is sealed from the primary
answer alone, with no matches attached.  Used only to compare against
`finishStream` when the lookup fails. -/
def finishStreamNoLookup (st : StreamAcc) : ChatState :=
  match st.finalAnswer with
  | none => st.chat
  | some ans =>
    if ans = "" then st.chat
    else sealTurn ans st.toolCalls [] st.chat

/-- The whole `chatWithStream(message)` call: a non-ok response throws
before any frame is produced; otherwise the read loop runs over the chunks
and the turn is finalized.  The error value carries the exception message
and the store state at the throw. -/
def chatWithStream (parse : String → Except String Data)
    (lookup : AugRequest → Except String SearchResponse)
    (responseOk : Bool) (message : String) (chunks : List String)
    (s : ChatState) : Except (String × ChatState) (ChatState × List AugRequest) :=
  if responseOk = false then Except.error ("请求失败", s)
  else
    match processChunks parse ⟨"", ⟨none, [], s⟩⟩ chunks with
    | Except.error e => Except.error e
    | Except.ok c => Except.ok (finishStream lookup message c.acc)

/-- The `try`/`catch`/`finally` of `handleSend` around `chatWithStream`: a
thrown error appends an apologetic assistant message carrying the cause and
sets the status to `error`; either way loading ends. -/
def sendOutcome (parse : String → Except String Data)
    (lookup : AugRequest → Except String SearchResponse)
    (responseOk : Bool) (message : String) (chunks : List String)
    (s : ChatState) : ChatState :=
  match chatWithStream parse lookup responseOk message chunks s with
  | Except.ok (s2, _) => setLoading s2 false
  | Except.error (e, s2) =>
    let cause := if e = "" then "未知错误" else e
    setLoading
      (setAgentStatus
        (addAssistantMessage s2 ("抱歉，发生了错误：" ++ cause) none none)
        AgentStatus.error)
      false

/-- The `handleSend` action of ChatView.vue: a blank input or an in-flight
turn is a no-op; otherwise the user message is appended, loading starts, the
status becomes `thinking`, the step log is cleared, and the stream is
consumed. -/
def handleSend (parse : String → Except String Data)
    (lookup : AugRequest → Except String SearchResponse)
    (responseOk : Bool) (chunks : List String)
    (inputText : String) (s : ChatState) : ChatState :=
  let text := jsTrim inputText
  if text = "" ∨ s.isLoading then s
  else
    let s1 := clearSteps (setAgentStatus (setLoading (addUserMessage s text) true) AgentStatus.thinking)
    sendOutcome parse lookup responseOk text chunks s1

/-- The framing layer of `chatWithStream` in isolation: the same line
classification, but emitting the `(eventType, raw payload)` pairs instead of
interpreting them. -/
def framerLines : String → List String → List (String × String)
  | _, [] => []
  | eventType, line :: rest =>
    if jsStartsWith line "event:" then
      framerLines (jsTrim (jsSlice line 6)) rest
    else if jsStartsWith line "data:" then
      (eventType, jsTrim (jsSlice line 5)) :: framerLines eventType rest
    else framerLines eventType rest

/-- One read iteration of the framer: buffer maintenance exactly as in the
read loop, with the per-read event type restarting at the empty string. -/
def framerChunk (st : String × List (String × String)) (chunk : String) :
    String × List (String × String) :=
  let lines := jsSplitNl (st.1 ++ chunk)
  ((lines.getLast?).getD "", st.2 ++ framerLines "" lines.dropLast)

/-- The frames emitted by the byte-stream framer over a whole chunk
sequence. -/
def framer (chunks : List String) : List (String × String) :=
  (chunks.foldl framerChunk ("", [])).2

/-- The step-log well-formedness invariant: the recorded step numbers are
exactly 1, 2, 3, ... in append order. -/
def goodSteps (l : List AgentStep) : Prop :=
  l.map AgentStep.step = List.range' 1 l.length

/-- Step log of a read-loop outcome, whether it returned or threw. -/
def outcomeSteps : Except (String × ChatState) ChunkAcc → List AgentStep
  | Except.ok c => c.acc.chat.currentSteps
  | Except.error (_, ch) => ch.currentSteps

/-- Step log of a line-loop outcome, whether it returned or threw. -/
def lineOutcomeSteps : Except (String × ChatState) StreamAcc → List AgentStep
  | Except.ok acc => acc.chat.currentSteps
  | Except.error (_, ch) => ch.currentSteps

/-- Sample stream payloads used to instantiate the theorems. -/
def dThinking (t : String) : Data :=
  ⟨some t, none, none, none, none, none, none⟩

/-- Sample `tool_call` payload. -/
def dToolCall : Data :=
  ⟨none, some "search", some [("q", "x")], none, none, none, none⟩

/-- Sample `answer` payload. -/
def dAnswer (a : String) : Data :=
  ⟨none, none, none, none, none, none, some a⟩

/-- Sample `error` payload. -/
def dError (e : String) : Data :=
  ⟨none, none, none, none, none, some e, none⟩

/-- Sample payload decoder: two recognised payload texts, everything else a
decode failure. -/
def parseDemo : String → Except String Data :=
  fun s =>
    if s = "T" then Except.ok (dThinking "analyzing")
    else if s = "A" then Except.ok (dAnswer "Hello")
    else Except.error "unexpected token"

/-- Sample search records. -/
def demoRec1 : SearchResult :=
  ⟨1, "合同A", some "甲方", some "常法", some 50, none, none, none, (19 : Rat) / 20⟩

/-- Second sample search record. -/
def demoRec2 : SearchResult :=
  ⟨2, "合同B", none, none, none, none, none, none, (4 : Rat) / 5⟩

/-- Sample lookup that always succeeds with two records. -/
def lookupOk : AugRequest → Except String SearchResponse :=
  fun req => Except.ok ⟨true, req.query, req.mode, 2, [demoRec1, demoRec2]⟩

/-- Sample lookup that always fails. -/
def lookupFail : AugRequest → Except String SearchResponse :=
  fun _ => Except.error "network down"

/-- Empty chat store. -/
def emptyChat : ChatState :=
  ⟨[], AgentStatus.idle, [], false⟩

/-- Chat store as it looks right after `handleSend` prepared a turn. -/
def turnStart : ChatState :=
  ⟨[], AgentStatus.thinking, [], true⟩

/-- Sample user message record. -/
def demoUserMsg : Message :=
  ⟨Role.user, "找业绩", none, none, none, none⟩

/-- Sample assistant message record. -/
def demoAsstMsg : Message :=
  ⟨Role.assistant, "Hello", none, none, none, none⟩

/-- Sample update object carrying only a content replacement. -/
def demoUpdates : MessageUpdates :=
  ⟨some "Hi", none, none, none, none⟩

/-- How one event changes the session status, as a function of its type
alone. -/
theorem handleEvent_status (st : StreamAcc) (e : String) (d : Data) :
    (handleEvent st e d).chat.agentStatus =
      (if e = "thinking" then AgentStatus.thinking
       else if e = "tool_call" then AgentStatus.executing
       else if e = "tool_result" then st.chat.agentStatus
       else if e = "answer" then AgentStatus.done
       else if e = "error" then AgentStatus.error
       else st.chat.agentStatus) := by
  unfold handleEvent
  repeat' split
  all_goals simp_all [addStep, setAgentStatus]

/-- No event ever touches the message list. -/
theorem handleEvent_messages (st : StreamAcc) (e : String) (d : Data) :
    (handleEvent st e d).chat.messages = st.chat.messages := by
  unfold handleEvent
  repeat' split
  all_goals simp_all [addStep, setAgentStatus]

/-- `thinking` and `tool_call` events leave `finalAnswer` untouched. -/
theorem handleEvent_finalAnswer_nonterminal (st : StreamAcc) (e : String) (d : Data)
    (h : e = "thinking" ∨ e = "tool_call" ∨ e = "tool_result") :
    (handleEvent st e d).finalAnswer = st.finalAnswer := by
  unfold handleEvent
  rcases h with h | h | h <;> subst h <;> simp

/-- Claim C1 (code bug witness): delivering `event: answer` and
`data: x` as two complete-line reads yields a frame with an EMPTY event
type, while the very same bytes in one read yield the `answer` frame — the
current event type is reset at each read, not retained across chunk
boundaries, so the emitted frame sequence depends on the chunking. -/
theorem framer_not_chunking_invariant :
    framer ["event: answer\n", "data: x\n"] = [("", "x")] ∧
    framer ["event: answer\ndata: x\n"] = [("answer", "x")] ∧
    framer ["event: answer\n", "data: x\n"] ≠
      framer ["event: answer\ndata: x\n"] := by
  refine ⟨by decide, by decide, by decide⟩

/-- Claim C5: an `error` event frame with payload field `error = e` sets the
session status to `error`, records the synthesized final answer — the fixed
failure template with `e` substituted — and appends no step record (the
whole accumulator is unchanged apart from those two fields). -/
theorem error_event_effect (st : StreamAcc) (d : Data) (e : String)
    (h : d.error = some e) :
    handleEvent st "error" d =
      { st with
        finalAnswer := some ("抱歉，执行出错：" ++ e)
        chat := { st.chat with agentStatus := AgentStatus.error } } := by
  unfold handleEvent
  simp [setAgentStatus, jsStr, h]

/-- Witness for C5 at a concrete payload. -/
theorem error_event_effect_w :
    handleEvent ⟨none, [], turnStart⟩ "error" (dError "boom") =
      { finalAnswer := some ("抱歉，执行出错：" ++ "boom")
        toolCalls := []
        chat := { turnStart with agentStatus := AgentStatus.error } } :=
  error_event_effect ⟨none, [], turnStart⟩ (dError "boom") "boom" rfl

/-- Claim C6: across any processed frame sequence, the terminal status
`done` can only have been set by an `answer` event, and `error` only by an
`error` event; `thinking`, `tool_call`, `tool_result`, and unrecognized
event types never set a terminal status. -/
theorem terminal_status_only_from_terminal_events (acc : StreamAcc) (fs : List Frame) :
    ((processFrames acc fs).chat.agentStatus = AgentStatus.done →
      acc.chat.agentStatus = AgentStatus.done ∨ ∃ f ∈ fs, f.eventType = "answer") ∧
    ((processFrames acc fs).chat.agentStatus = AgentStatus.error →
      acc.chat.agentStatus = AgentStatus.error ∨ ∃ f ∈ fs, f.eventType = "error") := by
  induction fs generalizing acc with
  | nil => simp [processFrames]
  | cons f fs ih =>
    have hstep := handleEvent_status acc f.eventType f.data
    have hih := ih (handleEvent acc f.eventType f.data)
    constructor
    · intro hdone
      rcases hih.1 hdone with hbase | ⟨g, hg, hgev⟩
      · rw [hstep] at hbase
        by_cases h1 : f.eventType = "thinking" <;>
          by_cases h2 : f.eventType = "tool_call" <;>
          by_cases h3 : f.eventType = "tool_result" <;>
          by_cases h4 : f.eventType = "answer" <;>
          by_cases h5 : f.eventType = "error" <;>
          simp_all [processFrames]
      · exact Or.inr ⟨g, List.mem_cons_of_mem f hg, hgev⟩
    · intro herr
      rcases hih.2 herr with hbase | ⟨g, hg, hgev⟩
      · rw [hstep] at hbase
        by_cases h1 : f.eventType = "thinking" <;>
          by_cases h2 : f.eventType = "tool_call" <;>
          by_cases h3 : f.eventType = "tool_result" <;>
          by_cases h4 : f.eventType = "answer" <;>
          by_cases h5 : f.eventType = "error" <;>
          simp_all [processFrames]
      · exact Or.inr ⟨g, List.mem_cons_of_mem f hg, hgev⟩

/-- Witness for C6 on a concrete stream ending in `done`. -/
theorem terminal_status_only_from_terminal_events_w :
    (⟨none, [], turnStart⟩ : StreamAcc).chat.agentStatus = AgentStatus.done ∨
      ∃ f ∈ [(⟨"answer", dAnswer "Hello"⟩ : Frame)], f.eventType = "answer" :=
  (terminal_status_only_from_terminal_events ⟨none, [], turnStart⟩
      [⟨"answer", dAnswer "Hello"⟩]).1 (by decide)

/-- Streams made only of `thinking`/`tool_call` frames never assign
`finalAnswer`, never touch the message list, and keep the status at the
value set by the latest frame (or the starting value). -/
theorem processFrames_nonterminal (fs : List Frame) (acc : StreamAcc)
    (hev : ∀ f ∈ fs, f.eventType = "thinking" ∨ f.eventType = "tool_call") :
    (processFrames acc fs).finalAnswer = acc.finalAnswer ∧
    (processFrames acc fs).chat.messages = acc.chat.messages ∧
    ((processFrames acc fs).chat.agentStatus = acc.chat.agentStatus ∨
     (processFrames acc fs).chat.agentStatus = AgentStatus.thinking ∨
     (processFrames acc fs).chat.agentStatus = AgentStatus.executing) := by
  induction fs generalizing acc with
  | nil => simp [processFrames]
  | cons f fs ih =>
    have hf := hev f (List.mem_cons_self f fs)
    have hrest : ∀ g ∈ fs, g.eventType = "thinking" ∨ g.eventType = "tool_call" :=
      fun g hg => hev g (List.mem_cons_of_mem f hg)
    have hih := ih (handleEvent acc f.eventType f.data) hrest
    have hfa : (handleEvent acc f.eventType f.data).finalAnswer = acc.finalAnswer :=
      handleEvent_finalAnswer_nonterminal acc f.eventType f.data
        (Or.imp id Or.inl hf)
    have hmsg := handleEvent_messages acc f.eventType f.data
    have hstat := handleEvent_status acc f.eventType f.data
    refine ⟨?_, ?_, ?_⟩
    · calc (processFrames acc (f :: fs)).finalAnswer
          = (handleEvent acc f.eventType f.data).finalAnswer := hih.1
        _ = acc.finalAnswer := hfa
    · calc (processFrames acc (f :: fs)).chat.messages
          = (handleEvent acc f.eventType f.data).chat.messages := hih.2.1
        _ = acc.chat.messages := hmsg
    · have hbridge : (processFrames acc (f :: fs)).chat.agentStatus =
          (processFrames (handleEvent acc f.eventType f.data) fs).chat.agentStatus := rfl
      rw [hbridge]
      rcases hih.2.2 with hsame | hrest2
      · rw [hsame, hstat]
        rcases hf with h | h <;> simp [h]
      · exact Or.inr hrest2

/-- Claim C2: a stream producing only `thinking`/`tool_call` frames appends
no assistant message — the finalization leaves the store exactly as the last
frame left it — and the session status stays at its last non-terminal value
(`thinking` or `executing`, the starting status being `thinking`). -/
theorem no_terminal_event_no_assistant_message (fs : List Frame)
    (lookup : AugRequest → Except String SearchResponse) (message : String)
    (s : ChatState)
    (hev : ∀ f ∈ fs, f.eventType = "thinking" ∨ f.eventType = "tool_call")
    (hst : s.agentStatus = AgentStatus.thinking) :
    finishStream lookup message (processFrames ⟨none, [], s⟩ fs) =
      ((processFrames ⟨none, [], s⟩ fs).chat, []) ∧
    (processFrames ⟨none, [], s⟩ fs).chat.messages = s.messages ∧
    ((processFrames ⟨none, [], s⟩ fs).chat.agentStatus = AgentStatus.thinking ∨
     (processFrames ⟨none, [], s⟩ fs).chat.agentStatus = AgentStatus.executing) := by
  have h := processFrames_nonterminal fs ⟨none, [], s⟩ hev
  refine ⟨?_, h.2.1, ?_⟩
  · have hfa : (processFrames ⟨none, [], s⟩ fs).finalAnswer = none := h.1
    unfold finishStream
    rw [hfa]
  · rcases h.2.2 with hsame | hrest
    · rw [hsame]; exact Or.inl hst
    · exact hrest

/-- Witness for C2 on a concrete `thinking`-then-`tool_call` stream. -/
theorem no_terminal_event_no_assistant_message_w :
    finishStream lookupOk "hi"
        (processFrames ⟨none, [], turnStart⟩
          [⟨"thinking", dThinking "analyzing"⟩, ⟨"tool_call", dToolCall⟩]) =
      ((processFrames ⟨none, [], turnStart⟩
          [⟨"thinking", dThinking "analyzing"⟩, ⟨"tool_call", dToolCall⟩]).chat, []) ∧
    (processFrames ⟨none, [], turnStart⟩
        [⟨"thinking", dThinking "analyzing"⟩, ⟨"tool_call", dToolCall⟩]).chat.messages =
      turnStart.messages ∧
    ((processFrames ⟨none, [], turnStart⟩
        [⟨"thinking", dThinking "analyzing"⟩, ⟨"tool_call", dToolCall⟩]).chat.agentStatus =
        AgentStatus.thinking ∨
     (processFrames ⟨none, [], turnStart⟩
        [⟨"thinking", dThinking "analyzing"⟩, ⟨"tool_call", dToolCall⟩]).chat.agentStatus =
        AgentStatus.executing) :=
  no_terminal_event_no_assistant_message
    [⟨"thinking", dThinking "analyzing"⟩, ⟨"tool_call", dToolCall⟩]
    lookupOk "hi" turnStart (by decide) rfl

/-- Claim C10: an `answer` terminal event carrying the empty answer string
sets the session status to `done`, yet the finalization appends no assistant
message, attempts no augmentation lookup, and discards the accumulated
tool-call summaries. -/
theorem empty_answer_no_assistant_message (st : StreamAcc)
    (lookup : AugRequest → Except String SearchResponse) (message : String)
    (d : Data) (h : d.answer = some "") :
    (handleEvent st "answer" d).chat.agentStatus = AgentStatus.done ∧
    finishStream lookup message (handleEvent st "answer" d) =
      ((handleEvent st "answer" d).chat, []) ∧
    (handleEvent st "answer" d).chat.messages = st.chat.messages := by
  have heq : handleEvent st "answer" d =
      { st with
        finalAnswer := d.answer
        chat := setAgentStatus st.chat AgentStatus.done } := by
    unfold handleEvent
    simp
  rw [heq, h]
  refine ⟨rfl, ?_, rfl⟩
  unfold finishStream
  simp

/-- Witness for C10 at a concrete empty-answer event. -/
theorem empty_answer_no_assistant_message_w :
    (handleEvent ⟨none, [], turnStart⟩ "answer" (dAnswer "")).chat.agentStatus =
      AgentStatus.done ∧
    finishStream lookupOk "hi" (handleEvent ⟨none, [], turnStart⟩ "answer" (dAnswer "")) =
      ((handleEvent ⟨none, [], turnStart⟩ "answer" (dAnswer "")).chat, []) ∧
    (handleEvent ⟨none, [], turnStart⟩ "answer" (dAnswer "")).chat.messages =
      (⟨none, [], turnStart⟩ : StreamAcc).chat.messages :=
  empty_answer_no_assistant_message ⟨none, [], turnStart⟩ lookupOk "hi" (dAnswer "") rfl

/-- Claim C4: when the augmentation lookup fails, the finalization is
identical to the run in which the lookup is never attempted — the assistant
message carries the primary answer and no matches — and the session status
is untouched. -/
theorem augmentation_failure_isolated
    (lookup : AugRequest → Except String SearchResponse) (message : String)
    (st : StreamAcc) (err : String)
    (h : lookup ⟨message, 5, "hybrid"⟩ = Except.error err) :
    (finishStream lookup message st).1 = finishStreamNoLookup st ∧
    (finishStream lookup message st).1.agentStatus = st.chat.agentStatus := by
  cases hfa : st.finalAnswer with
  | none => simp [finishStream, finishStreamNoLookup, hfa]
  | some ans =>
    by_cases hemp : ans = ""
    · simp [finishStream, finishStreamNoLookup, hfa, hemp]
    · have hperf : (runAugmentation lookup message ans).2 = [] := by
        unfold runAugmentation
        by_cases htr : (jsIncludes ans "业绩" || jsIncludes ans "合同") = true
        · simp [htr, h]
        · simp [htr]
      constructor
      · simp [finishStream, finishStreamNoLookup, hfa, hemp, hperf]
      · simp [finishStream, hfa, hemp, sealTurn, addAssistantMessage]

/-- Witness for C4 with a failing lookup. -/
theorem augmentation_failure_isolated_w :
    (finishStream lookupFail "找业绩"
        (⟨some "这是业绩答复", [], turnStart⟩ : StreamAcc)).1 =
      finishStreamNoLookup (⟨some "这是业绩答复", [], turnStart⟩ : StreamAcc) ∧
    (finishStream lookupFail "找业绩"
        (⟨some "这是业绩答复", [], turnStart⟩ : StreamAcc)).1.agentStatus =
      (⟨some "这是业绩答复", [], turnStart⟩ : StreamAcc).chat.agentStatus :=
  augmentation_failure_isolated lookupFail "找业绩"
    ⟨some "这是业绩答复", [], turnStart⟩ "network down" rfl

/-- Claim C8: when the final answer contains a trigger keyword, exactly one
lookup is issued — with the original user query, top-K 5 and hybrid mode —
and on success its records are attached as the assistant message's matches
in the order returned, scores unchanged. -/
theorem augmentation_attaches_matches
    (lookup : AugRequest → Except String SearchResponse) (message ans : String)
    (tcs : List ToolCall) (chat : ChatState) (resp : SearchResponse)
    (htrig : (jsIncludes ans "业绩" || jsIncludes ans "合同") = true)
    (hne : ans ≠ "")
    (hok : lookup ⟨message, 5, "hybrid"⟩ = Except.ok resp)
    (hres : resp.results ≠ []) :
    finishStream lookup message ⟨some ans, tcs, chat⟩ =
      (addAssistantMessage chat ans
        (if tcs.length > 0 then some tcs else none)
        (some resp.results),
       [⟨message, 5, "hybrid"⟩]) := by
  have hmap : resp.results.map (fun r => { r with score := r.score }) = resp.results := by
    have hfun : (fun r : SearchResult => { r with score := r.score }) =
        fun r => r := funext fun r => rfl
    rw [hfun]
    simp
  have hlen : resp.results.length > 0 := List.length_pos.mpr hres
  unfold finishStream runAugmentation sealTurn
  simp [hne, htrig, hok, hmap, hlen]

/-- Witness for C8 with two concrete records. -/
theorem augmentation_attaches_matches_w :
    finishStream lookupOk "找业绩" ⟨some "相关业绩如下", [], turnStart⟩ =
      (addAssistantMessage turnStart "相关业绩如下"
        (if ([] : List ToolCall).length > 0 then some [] else none)
        (some [demoRec1, demoRec2]),
       [⟨"找业绩", 5, "hybrid"⟩]) :=
  augmentation_attaches_matches lookupOk "找业绩" "相关业绩如下" [] turnStart
    ⟨true, "找业绩", "hybrid", 2, [demoRec1, demoRec2]⟩
    (by decide) (by decide) rfl (by decide)

/-- The reverse scan is the identity on a list with no assistant message. -/
theorem updateRev_no_assistant (u : MessageUpdates) (l : List Message)
    (h : ∀ m ∈ l, m.role ≠ Role.assistant) :
    updateLastAssistantRev u l = l := by
  induction l with
  | nil => rfl
  | cons m rest ih =>
    have hm := h m (List.mem_cons_self m rest)
    unfold updateLastAssistantRev
    rw [if_neg hm, ih fun g hg => h g (List.mem_cons_of_mem m hg)]

/-- The reverse scan merges the first assistant entry it meets and keeps
everything else. -/
theorem updateRev_found (u : MessageUpdates) (l1 : List Message) (a : Message)
    (l2 : List Message) (h1 : ∀ m ∈ l1, m.role ≠ Role.assistant)
    (ha : a.role = Role.assistant) :
    updateLastAssistantRev u (l1 ++ a :: l2) = l1 ++ mergeMessage a u :: l2 := by
  induction l1 with
  | nil =>
    show updateLastAssistantRev u (a :: l2) = mergeMessage a u :: l2
    unfold updateLastAssistantRev
    rw [if_pos ha]
  | cons m rest ih =>
    have hm := h1 m (List.mem_cons_self m rest)
    show updateLastAssistantRev u (m :: (rest ++ a :: l2)) = _
    unfold updateLastAssistantRev
    rw [if_neg hm, ih fun g hg => h1 g (List.mem_cons_of_mem m hg)]
    rfl

/-- Claim C9: `updateLastAssistantMessage` merges the updates into the most
recent assistant message found by reverse scan, leaves every other message
(in particular every user message) unchanged, and is a no-op when the store
holds no assistant message. -/
theorem amend_last_assistant_message (s : ChatState) (u : MessageUpdates) :
    ((∀ m ∈ s.messages, m.role ≠ Role.assistant) →
      updateLastAssistantMessage s u = s) ∧
    (∀ pre (a : Message) post, s.messages = pre ++ a :: post →
      a.role = Role.assistant → (∀ m ∈ post, m.role ≠ Role.assistant) →
      (updateLastAssistantMessage s u).messages =
        pre ++ mergeMessage a u :: post) := by
  constructor
  · intro h
    unfold updateLastAssistantMessage
    rw [updateRev_no_assistant u s.messages.reverse
        (fun m hm => h m (List.mem_reverse.mp hm)),
      List.reverse_reverse]
  · intro pre a post hdecomp ha hpost
    unfold updateLastAssistantMessage
    rw [hdecomp]
    have hrev : (pre ++ a :: post).reverse = post.reverse ++ a :: pre.reverse := by
      simp
    rw [hrev, updateRev_found u post.reverse a pre.reverse
        (fun m hm => hpost m (List.mem_reverse.mp hm)) ha]
    simp

/-- Witness for C9 on a two-message store. -/
theorem amend_last_assistant_message_w :
    (updateLastAssistantMessage
        ⟨[demoUserMsg, demoAsstMsg], AgentStatus.idle, [], false⟩
        demoUpdates).messages =
      [demoUserMsg] ++ mergeMessage demoAsstMsg demoUpdates :: [] :=
  (amend_last_assistant_message
      ⟨[demoUserMsg, demoAsstMsg], AgentStatus.idle, [], false⟩ demoUpdates).2
    [demoUserMsg] demoAsstMsg [] rfl rfl (by simp)

/-- Appending a record numbered `length + 1` keeps the step numbering
contiguous. -/
theorem goodSteps_append (l : List AgentStep) (st : AgentStep)
    (h : goodSteps l) (hs : st.step = l.length + 1) :
    goodSteps (l ++ [st]) := by
  unfold goodSteps at h ⊢
  rw [List.map_append, h, List.length_append]
  simp [hs, List.range'_1_concat, Nat.add_comm]

/-- Every event handler either leaves the step log alone or appends the
record numbered `length + 1`, so the numbering invariant is preserved. -/
theorem handleEvent_goodSteps (st : StreamAcc) (e : String) (d : Data)
    (h : goodSteps st.chat.currentSteps) :
    goodSteps (handleEvent st e d).chat.currentSteps := by
  unfold handleEvent
  repeat' split
  all_goals first
    | exact h
    | exact goodSteps_append _ _ h rfl

/-- The line loop preserves the step numbering invariant, whether it
returns or throws. -/
theorem processLines_goodSteps (parse : String → Except String Data)
    (lines : List String) :
    ∀ (ev : String) (acc : StreamAcc), goodSteps acc.chat.currentSteps →
      goodSteps (lineOutcomeSteps (processLines parse ev acc lines)) := by
  induction lines with
  | nil => intro ev acc h; exact h
  | cons line rest ih =>
    intro ev acc h
    unfold processLines
    split
    · exact ih _ _ h
    · split
      · split
        · exact h
        · exact ih _ _ (handleEvent_goodSteps _ _ _ h)
      · exact ih _ _ h

/-- One read iteration preserves the step numbering invariant. -/
theorem processChunk_goodSteps (parse : String → Except String Data)
    (c : ChunkAcc) (chunk : String) (h : goodSteps c.acc.chat.currentSteps) :
    goodSteps (outcomeSteps (processChunk parse c chunk)) := by
  have hl := processLines_goodSteps parse
    ((jsSplitNl (c.buffer ++ chunk)).dropLast) "" c.acc h
  unfold processChunk
  cases hres : processLines parse "" c.acc ((jsSplitNl (c.buffer ++ chunk)).dropLast) with
  | error e =>
    rw [hres] at hl
    simp only [hres]
    cases e with
    | mk e ch => exact hl
  | ok acc =>
    rw [hres] at hl
    simp only [hres]
    exact hl

/-- The whole read loop preserves the step numbering invariant. -/
theorem processChunks_goodSteps (parse : String → Except String Data)
    (chunks : List String) :
    ∀ (c : ChunkAcc), goodSteps c.acc.chat.currentSteps →
      goodSteps (outcomeSteps (processChunks parse c chunks)) := by
  induction chunks with
  | nil => intro c h; exact h
  | cons chunk rest ih =>
    intro c h
    have hstep := processChunk_goodSteps parse c chunk h
    unfold processChunks
    cases hres : processChunk parse c chunk with
    | error e =>
      rw [hres] at hstep
      cases e with
      | mk e ch => exact hstep
    | ok c2 =>
      rw [hres] at hstep
      exact ih c2 hstep

/-- Turn finalization never touches the step log. -/
theorem finishStream_currentSteps
    (lookup : AugRequest → Except String SearchResponse) (message : String)
    (st : StreamAcc) :
    (finishStream lookup message st).1.currentSteps = st.chat.currentSteps := by
  unfold finishStream
  cases st.finalAnswer with
  | none => rfl
  | some ans =>
    by_cases hemp : ans = "" <;>
      simp [hemp, sealTurn, addAssistantMessage]

/-- The whole send cycle tail (stream, finalization, catch, finally)
preserves the step numbering invariant. -/
theorem sendOutcome_goodSteps (parse : String → Except String Data)
    (lookup : AugRequest → Except String SearchResponse)
    (responseOk : Bool) (message : String) (chunks : List String)
    (s : ChatState) (h : goodSteps s.currentSteps) :
    goodSteps (sendOutcome parse lookup responseOk message chunks s).currentSteps := by
  unfold sendOutcome chatWithStream
  by_cases hok : responseOk = false
  · simp only [hok]
    simpa [addAssistantMessage, setAgentStatus, setLoading] using h
  · simp only [hok]
    have hc := processChunks_goodSteps parse chunks ⟨"", ⟨none, [], s⟩⟩ h
    cases hres : processChunks parse ⟨"", ⟨none, [], s⟩⟩ chunks with
    | error e =>
      rw [hres] at hc
      cases e with
      | mk e ch =>
        simpa [addAssistantMessage, setAgentStatus, setLoading] using hc
    | ok c =>
      rw [hres] at hc
      simpa [setLoading, finishStream_currentSteps] using hc

/-- Claim C3: within a send cycle the appended step records are numbered
exactly 1, 2, 3, ... in append order, with no gaps, however the frames were
grouped into network reads; and the step log is reset to empty at the start
of the cycle. -/
theorem step_log_sequence (parse : String → Except String Data)
    (lookup : AugRequest → Except String SearchResponse)
    (responseOk : Bool) (chunks : List String) (inputText : String)
    (s : ChatState) (h1 : jsTrim inputText ≠ "") (h2 : s.isLoading = false) :
    goodSteps (handleSend parse lookup responseOk chunks inputText s).currentSteps ∧
    (clearSteps s).currentSteps = [] := by
  refine ⟨?_, rfl⟩
  unfold handleSend
  rw [if_neg (by simp [h1, h2])]
  exact sendOutcome_goodSteps parse lookup responseOk (jsTrim inputText) chunks
    (clearSteps (setAgentStatus (setLoading (addUserMessage s (jsTrim inputText)) true) AgentStatus.thinking))
    rfl

/-- Witness for C3 on a concrete two-frame stream. -/
theorem step_log_sequence_w :
    goodSteps (handleSend parseDemo lookupOk true
        ["event: thinking\ndata: T\n", "event: answer\ndata: A\n"]
        " 找业绩 " emptyChat).currentSteps ∧
    (clearSteps emptyChat).currentSteps = [] :=
  step_log_sequence parseDemo lookupOk true
    ["event: thinking\ndata: T\n", "event: answer\ndata: A\n"]
    " 找业绩 " emptyChat (by decide) rfl

/-- The read loop short-circuits on a throw: chunks after the failing one
are never processed. -/
theorem processChunks_append (parse : String → Except String Data)
    (l1 : List String) :
    ∀ (l2 : List String) (c : ChunkAcc),
      processChunks parse c (l1 ++ l2) =
        match processChunks parse c l1 with
        | Except.error e => Except.error e
        | Except.ok c2 => processChunks parse c2 l2 := by
  induction l1 with
  | nil => intro l2 c; rfl
  | cons chunk rest ih =>
    intro l2 c
    have heqL : processChunks parse c ((chunk :: rest) ++ l2) =
        (match processChunk parse c chunk with
         | Except.error e => Except.error e
         | Except.ok c2 => processChunks parse c2 (rest ++ l2)) := rfl
    have heqR : processChunks parse c (chunk :: rest) =
        (match processChunk parse c chunk with
         | Except.error e => Except.error e
         | Except.ok c2 => processChunks parse c2 rest) := rfl
    rw [heqL, heqR]
    cases h : processChunk parse c chunk with
    | error e => rfl
    | ok c2 => exact ih l2 c2

/-- Claim C7: a malformed `data:` payload aborts the turn: the send cycle
ends exactly as on a transport error — an apologetic assistant message
whose text carries the underlying cause, session status `error`, loading
off — and any chunks delivered after the failure have no effect. -/
theorem decode_error_aborts_turn (parse : String → Except String Data)
    (lookup : AugRequest → Except String SearchResponse) (message : String)
    (chunks more : List String) (s1 s2 : ChatState) (e : String)
    (h : processChunks parse ⟨"", ⟨none, [], s1⟩⟩ chunks = Except.error (e, s2)) :
    (sendOutcome parse lookup true message chunks s1).messages =
      s2.messages ++
        [{ role := Role.assistant
           content := "抱歉，发生了错误：" ++ (if e = "" then "未知错误" else e)
           thinking := none
           toolCalls := none
           status := none
           performances := none }] ∧
    (sendOutcome parse lookup true message chunks s1).agentStatus = AgentStatus.error ∧
    (sendOutcome parse lookup true message chunks s1).isLoading = false ∧
    processChunks parse ⟨"", ⟨none, [], s1⟩⟩ (chunks ++ more) = Except.error (e, s2) := by
  have habs : processChunks parse ⟨"", ⟨none, [], s1⟩⟩ (chunks ++ more) =
      Except.error (e, s2) := by
    rw [processChunks_append parse chunks more ⟨"", ⟨none, [], s1⟩⟩, h]
  have hout : sendOutcome parse lookup true message chunks s1 =
      setLoading
        (setAgentStatus
          (addAssistantMessage s2
            ("抱歉，发生了错误：" ++ (if e = "" then "未知错误" else e)) none none)
          AgentStatus.error)
        false := by
    unfold sendOutcome chatWithStream
    simp only [h]
    rfl
  rw [hout]
  exact ⟨rfl, rfl, rfl, habs⟩

/-- Witness for C7 on a concrete undecodable payload. -/
theorem decode_error_aborts_turn_w :
    (sendOutcome parseDemo lookupOk true "hi" ["data: bad\n"] turnStart).messages =
      turnStart.messages ++
        [{ role := Role.assistant
           content := "抱歉，发生了错误：" ++
             (if "unexpected token" = "" then "未知错误" else "unexpected token")
           thinking := none
           toolCalls := none
           status := none
           performances := none }] ∧
    (sendOutcome parseDemo lookupOk true "hi" ["data: bad\n"] turnStart).agentStatus =
      AgentStatus.error ∧
    (sendOutcome parseDemo lookupOk true "hi" ["data: bad\n"] turnStart).isLoading = false ∧
    processChunks parseDemo ⟨"", ⟨none, [], turnStart⟩⟩
        (["data: bad\n"] ++ ["event: answer\ndata: A\n"]) =
      Except.error ("unexpected token", turnStart) :=
  decode_error_aborts_turn parseDemo lookupOk "hi"
    ["data: bad\n"] ["event: answer\ndata: A\n"] turnStart turnStart
    "unexpected token" rfl

end BidAssist
